import Mathlib

/-!
Shallow embedding of the agent-runner core of the `openai-agents-go` repository:
the `Runner.Run` turn loop (`runner.go`), tool dispatch and handoff detection
(`handleToolCalls`, `IsHandoff` in `tool.go`), the guardrail execution helpers
(`runInputGuardrails` / `runOutputGuardrails` in `guardrails.go`), and the two
session backends (`session/memory.go`, `session/file.go`).

Modelling conventions:
* Go errors become the inductive `GoErr`.  Distinct Go error *types* become
  distinct constructors; in particular the two textually identical but
  type-distinct `NotFoundError` structs — `agents.NotFoundError` declared in
  `runner.go` and `session.NotFoundError` declared in `session/session.go` —
  become the distinct constructors `notFoundAgents` and `notFoundSession`,
  because Go's type assertion `err.(*NotFoundError)` discriminates on the
  concrete type, not on the message.
* `fmt.Errorf("...: %w", err)` becomes the `wrapped` constructor.
* The completion service and the Go `context` are external: a run is driven by
  an oracle `completions : Nat → Except GoErr Completion` giving the outcome of
  the i-th completion-service call, and `ctxErr : Nat → Option GoErr` giving
  the value of `ctx.Err()` observed at the top of loop iteration i.
  `config.Timeout` only *derives* the context deadline in Go
  (`context.WithTimeout`), so in the model it influences which `ctxErr` traces
  the environment can produce but is not read anywhere else — exactly as in
  `runner.go`, where it is used only at lines 63-67.
* The loop is given fuel; `none` means the fuel ran out (the Go loop would have
  kept iterating).
* Wall-clock durations (`Step.Duration`, `ToolCall.Duration`) and the
  `Metadata` map of guardrail results are not modelled: no claim observes them.
-/

/-- Go errors of the runner core, one constructor per concrete Go error
type/value (`errors.go`, `runner.go`, `session/session.go`,
`guardrail/guardrail.go`, `context` package sentinels). -/
inductive GoErr : Type where
  /-- `ErrNoMessages` -/
  | errNoMessages : GoErr
  /-- `ErrMaxTurnsExceeded` -/
  | errMaxTurnsExceeded : GoErr
  /-- `ErrTimeout` -/
  | errTimeout : GoErr
  /-- `context.DeadlineExceeded` -/
  | deadlineExceeded : GoErr
  /-- `context.Canceled` -/
  | canceled : GoErr
  /-- `agents.NotFoundError` (declared in `runner.go`) -/
  | notFoundAgents : String → GoErr
  /-- `session.NotFoundError` (declared in `session/session.go`) -/
  | notFoundSession : String → GoErr
  /-- `session.StorageError` (session id, operation, message of wrapped error) -/
  | storage : String → String → String → GoErr
  /-- error built by `handleToolCalls` for an unknown tool name -/
  | toolNotFound : String → List String → GoErr
  /-- `ToolExecutionError` -/
  | toolExecutionError : String → GoErr → GoErr
  /-- `guardrail.InputGuardrailTripwireError` (name, message) -/
  | inputGuardrailTripwire : String → String → GoErr
  /-- `guardrail.OutputGuardrailTripwireError` (name, message) -/
  | outputGuardrailTripwire : String → String → GoErr
  /-- `fmt.Errorf("<prefix>: %w", e)` -/
  | wrapped : String → GoErr → GoErr
  /-- any other error value, identified by its message -/
  | external : String → GoErr
deriving DecidableEq, Repr

/-- `Error()` strings of the modelled Go errors. -/
def GoErr.msg : GoErr → String
  | .errNoMessages => "no messages provided"
  | .errMaxTurnsExceeded => "max turns exceeded"
  | .errTimeout => "agent execution timeout"
  | .deadlineExceeded => "context deadline exceeded"
  | .canceled => "context canceled"
  | .notFoundAgents id => "session \x27" ++ id ++ "\x27 not found"
  | .notFoundSession id => "session \x27" ++ id ++ "\x27 not found"
  | .storage id op m => "session \x27" ++ id ++ "\x27 " ++ op ++ " failed: " ++ m
  | .toolNotFound n avail =>
      "tool " ++ n ++ " not found (available: [" ++ String.intercalate " " avail ++ "])"
  | .toolExecutionError n e => "tool " ++ n ++ " failed: " ++ e.msg
  | .inputGuardrailTripwire n m =>
      if m ≠ "" then "input guardrail \x27" ++ n ++ "\x27 triggered: " ++ m
      else "input guardrail \x27" ++ n ++ "\x27 triggered"
  | .outputGuardrailTripwire n m =>
      if m ≠ "" then "output guardrail \x27" ++ n ++ "\x27 triggered: " ++ m
      else "output guardrail \x27" ++ n ++ "\x27 triggered"
  | .wrapped p e => p ++ ": " ++ e.msg
  | .external m => m

/-- Token usage (`types.go`): prompt/completion/total counts.  Go `int`. -/
structure Usage where
  promptTokens : Int
  completionTokens : Int
  totalTokens : Int
deriving DecidableEq, Repr

/-- `Usage.Add` (`types.go` lines 40-44): component-wise accumulation. -/
def Usage.Add (u other : Usage) : Usage :=
  { promptTokens := u.promptTokens + other.promptTokens
    completionTokens := u.completionTokens + other.completionTokens
    totalTokens := u.totalTokens + other.totalTokens }

/-- A tool-call request inside an assistant message
(`openai.ChatCompletionMessageToolCall`: ID, Function.Name,
Function.Arguments). -/
structure ToolCallReq where
  id : String
  fname : String
  args : String
deriving DecidableEq, Repr

/-- Conversation messages (`openai.ChatCompletionMessageParamUnion`), reduced
to the variants the runner reads or writes. -/
inductive Msg : Type where
  /-- a caller-supplied message (e.g. `openai.UserMessage`) -/
  | user : String → Msg
  | system : String → Msg
  /-- the assistant reply converted by `message.ToParam()` -/
  | assistant : String → String → List ToolCallReq → Msg
  /-- `openai.ToolMessage(content, toolCallID)` -/
  | tool : String → String → Msg
deriving DecidableEq, Repr

/-- The assistant message of `completion.Choices[0]`:
content, refusal, tool calls. -/
structure AssistantMsg where
  content : String
  refusal : String
  toolCalls : List ToolCallReq
deriving DecidableEq, Repr

/-- One successful completion-service response: its token usage and the message
of the first choice (`completion.Choices[0].Message`). -/
structure Completion where
  usage : Usage
  message : AssistantMsg
deriving DecidableEq, Repr

/-- Guardrail outcome (`guardrail.Result`); the `Metadata` map is not
modelled. -/
structure GRes where
  passed : Bool
  tripwireTriggered : Bool
  message : String
deriving DecidableEq, Repr

/-- `guardrail.Guardrail`: a named validation function.  The Go function also
receives a `context.Context`; none of the modelled behaviour reads it. -/
structure Guardrail where
  name : String
  func : String → Except GoErr GRes

/-- A structured-output response format (`jsonschema.ResponseFormat`), reduced
to what `prepareRequest` can observe: the `"text"` kind never fails, a
`"json_schema"` kind fails iff `js.Schema.ToMap()` fails. -/
inductive RespFormat : Type where
  | text : RespFormat
  /-- a json_schema format whose `Schema.ToMap()` succeeds -/
  | jsonSchemaOk : RespFormat
  /-- a json_schema format whose `Schema.ToMap()` fails with the given error -/
  | jsonSchemaBad : GoErr → RespFormat

/-- `ContextVariables` (`types.go`): a shared key/value store handed to tool
callbacks.  Its internal structure is irrelevant to every claim, so values are
kept as strings. -/
def ContextVariables : Type := List (String × String)

/-- `RunConfig` (`config.go`), restricted to the fields the runner's control
flow reads: `MaxTurns`, `Timeout` (nanoseconds; only derives the context
deadline), `ResponseFormat`.  `Temperature`, `MaxTokens`,
`ParallelToolCalls` and `Debug` only shape the outgoing request and are
absorbed by the completion oracle. -/
structure RunConfig where
  maxTurns : Int
  timeout : Int
  respFormat : Option RespFormat

/-- `DefaultRunConfig()` (`config.go`): MaxTurns 10, Timeout 5 minutes. -/
def DefaultRunConfig : RunConfig :=
  { maxTurns := 10, timeout := 300000000000, respFormat := none }

mutual
/-- `Agent` (`agent.go`, shape as used by `runner.go` and `agent_test.go`),
restricted to the fields the runner's control flow reads: name, tools,
input/output guardrails, lifecycle hooks, response format.  Hooks receive
`(ctx, agent)` in Go but their only effect on `Run` is the returned error, so
they are modelled by that outcome (`none` = no hook installed, `some none` =
hook returns nil, `some (some e)` = hook fails with e). -/
inductive Agent : Type where
  | mk : String → List Tool → List Guardrail → List Guardrail →
      Option (Option GoErr) → Option (Option GoErr) → Option RespFormat → Agent

/-- `Tool` (`tool.go`): name and optional callback.  The callback receives the
raw JSON argument string (Go unmarshals it first; an unmarshal failure is one
of the ways the modelled callback may return `.fail`). -/
inductive Tool : Type where
  | mk : String → Option (String → ContextVariables → ToolOut) → Tool

/-- Outcome of a tool callback: Go's `(any, error)` pair, of which
`handleToolCalls` only uses the value when the error is nil. -/
inductive ToolOut : Type where
  | ok : GoAny → ToolOut
  | fail : GoErr → ToolOut

/-- A Go `any` value as far as `handleToolCalls` can observe it: either an
`*Agent` (triggering a handoff) or anything else, identified by its `%v`
rendering. -/
inductive GoAny : Type where
  | str : String → GoAny
  | agentVal : Agent → GoAny
end

/-- `Agent.Name`. -/
def Agent.name : Agent → String
  | .mk n _ _ _ _ _ _ => n

/-- `Agent.Tools`. -/
def Agent.tools : Agent → List Tool
  | .mk _ ts _ _ _ _ _ => ts

/-- `Agent.InputGuardrails`. -/
def Agent.inputGuardrails : Agent → List Guardrail
  | .mk _ _ igs _ _ _ _ => igs

/-- `Agent.OutputGuardrails`. -/
def Agent.outputGuardrails : Agent → List Guardrail
  | .mk _ _ _ ogs _ _ _ => ogs

/-- `Agent.OnBeforeRun`, reduced to its outcome. -/
def Agent.onBeforeRun : Agent → Option (Option GoErr)
  | .mk _ _ _ _ b _ _ => b

/-- `Agent.OnAfterRun`, reduced to its outcome. -/
def Agent.onAfterRun : Agent → Option (Option GoErr)
  | .mk _ _ _ _ _ a _ => a

/-- `Agent.ResponseFormat`. -/
def Agent.respFormat : Agent → Option RespFormat
  | .mk _ _ _ _ _ _ rf => rf

/-- `Tool.Name`. -/
def Tool.name : Tool → String
  | .mk n _ => n

/-- `Tool.Callback`. -/
def Tool.callback : Tool → Option (String → ContextVariables → ToolOut)
  | .mk _ cb => cb

/-- `IsHandoff` (`tool.go` lines 82-85): is this `any` value an `*Agent`? -/
def IsHandoff : GoAny → Option Agent
  | .agentVal a => some a
  | .str _ => none

/-- `fmt.Sprintf("%v", result)` on the values `handleToolCalls` renders into a
tool message.  Go's `%v` on an `*Agent` prints the dereferenced struct
(`&\x7bName ...\x7d`); only the fact that this differs from the transfer
notice matters to any claim. -/
def GoAny.render : GoAny → String
  | .str s => s
  | .agentVal a => "&\x7b" ++ a.name ++ " ...\x7d"

/-- `fmt.Sprintf("%v", messages[len(messages)-1])`, the textual rendering of
the last caller message handed to input guardrails (`runner.go` line 84).  The
exact Go struct formatting is abstracted structurally; no claim depends on
it. -/
def Msg.render : Msg → String
  | .user s => s
  | .system s => s
  | .assistant c r _ => c ++ r
  | .tool c _ => c

/-- `Tool.Execute` (`tool.go`): empty argument string defaults to `"\x7b\x7d"`;
a nil callback is an error; otherwise the callback runs.  A JSON unmarshal
failure of the argument string is represented by the callback returning
`.fail`. -/
def Tool.execute (t : Tool) (argsJSON : String) (cv : ContextVariables) : ToolOut :=
  match t.callback with
  | none => .fail (.external ("tool " ++ t.name ++ " has no callback function"))
  | some cb => cb (if argsJSON = "" then "\x7b\x7d" else argsJSON) cv

/-- `ToolCall` (`types.go`): the recorded trace entry for one tool execution.
`Duration` is not modelled. -/
structure ToolCall where
  toolName : String
  arguments : String
  result : GoAny
  error : Option GoErr

/-- `Step` (`types.go`): telemetry for one loop iteration.  `Duration` is not
modelled. -/
structure Step where
  agentName : String
  toolCalls : List ToolCall
  stepNumber : Nat

/-- `Result` (`types.go`). -/
structure Result where
  messages : List Msg
  agent : Agent
  usage : Usage
  steps : List Step
  finalOutput : String

/-- The tool map built at the top of each turn (`runner.go` lines 132-137):
`toolMap[t.Name] = t` in registration order, so a later tool with the same
name overwrites an earlier one — lookup finds the last registration. -/
def lookupTool (tools : List Tool) (n : String) : Option Tool :=
  tools.reverse.find? (fun t => t.name = n)

/-- The key set of the tool map, used in the not-found message
(`runner.go` lines 353-356).  Go iterates map keys in unspecified order; the
model fixes first-registration order — no claim depends on the order. -/
def availableNames (tools : List Tool) : List String :=
  (tools.map Tool.name).eraseDups

/-- Tool-call IDs longer than 40 characters are truncated
(`runner.go` lines 163-169 and 383-386). -/
def trunc40 (s : String) : String :=
  if s.length > 40 then s.take 40 else s

/-- Truncate the IDs of every tool call in the assistant message
(`runner.go` lines 163-169), before the message enters history and before
`handleToolCalls` runs. -/
def truncIds (m : AssistantMsg) : AssistantMsg :=
  { m with toolCalls := m.toolCalls.map (fun tc => { tc with id := trunc40 tc.id }) }

/-- `message.ToParam()`: the assistant reply as a history message. -/
def AssistantMsg.toMsg (m : AssistantMsg) : Msg :=
  .assistant m.content m.refusal m.toolCalls

/-- Processing of a single requested tool call, first half of the loop body of
`handleToolCalls` (`runner.go` lines 342-365): resolve the name in the tool
map, execute, and on failure substitute a textual error message while keeping
the structured error. -/
def processOne (tools : List Tool) (cv : ContextVariables) (tc : ToolCallReq) :
    GoAny × Option GoErr :=
  match lookupTool tools tc.fname with
  | none =>
      (.str ("Error: Tool " ++ tc.fname ++ " not found. Available tools: [" ++
          String.intercalate " " (availableNames tools) ++ "]"),
       some (.toolNotFound tc.fname (availableNames tools)))
  | some t =>
      match t.execute tc.args cv with
      | .ok v => (v, none)
      | .fail e =>
          (.str ("Error executing tool " ++ tc.fname ++ ": " ++ e.msg),
           some (.toolExecutionError tc.fname e))

/-- Output of `handleToolCalls`: tool messages for history, recorded
`ToolCall`s, the next active agent, and (instrumentation) the list of agents
returned by callbacks in this batch, in order. -/
structure HTCOut where
  msgs : List Msg
  recorded : List ToolCall
  next : Agent
  handoffs : List Agent

/-- `Runner.handleToolCalls` (`runner.go` lines 332-392).  `next` plays the
role of the Go `nextAgent` variable: it starts as the current agent and each
handoff overwrites it, so the last handoff of the batch wins.  The `ToolCall`
is recorded *before* the handoff substitution, so it retains the raw result
value; the history message is built *after* it, so a handoff call contributes
the synthetic transfer notice. -/
def handleToolCalls (tools : List Tool) (cv : ContextVariables) :
    List ToolCallReq → Agent → HTCOut
  | [], next => { msgs := [], recorded := [], next := next, handoffs := [] }
  | tc :: rest, next =>
      let pr := processOne tools cv tc
      let recorded : ToolCall :=
        { toolName := tc.fname, arguments := tc.args, result := pr.1, error := pr.2 }
      let sub : GoAny × Agent × List Agent :=
        match IsHandoff pr.1 with
        | some b => (.str ("Transferred to " ++ b.name), b, [b])
        | none => (pr.1, next, [])
      let m : Msg := .tool sub.1.render (trunc40 tc.id)
      let out := handleToolCalls tools cv rest sub.2.1
      { msgs := m :: out.msgs
        recorded := recorded :: out.recorded
        next := out.next
        handoffs := sub.2.2 ++ out.handoffs }

/-- `Runner.runInputGuardrails` (`guardrails.go`): sequential; a guardrail's
own error is wrapped and fatal, a triggered tripwire yields the input-tripwire
error; `none` means all passed. -/
def runInputGuardrails : List Guardrail → String → Option GoErr
  | [], _ => none
  | g :: rest, input =>
      match g.func input with
      | .error e => some (.wrapped ("guardrail \x27" ++ g.name ++ "\x27 failed") e)
      | .ok r =>
          if r.tripwireTriggered then some (.inputGuardrailTripwire g.name r.message)
          else runInputGuardrails rest input

/-- `Runner.runOutputGuardrails` (`guardrails.go`): same shape as the input
variant but yielding the output-tripwire error. -/
def runOutputGuardrails : List Guardrail → String → Option GoErr
  | [], _ => none
  | g :: rest, output =>
      match g.func output with
      | .error e => some (.wrapped ("guardrail \x27" ++ g.name ++ "\x27 failed") e)
      | .ok r =>
          if r.tripwireTriggered then some (.outputGuardrailTripwire g.name r.message)
          else runOutputGuardrails rest output

/-- The only fallible part of `Runner.prepareRequest` (`runner.go` lines
282-319): resolving the response format (config override first, then the
agent's) and converting a json_schema format, whose `Schema.ToMap()` may
fail. -/
def prepareRequestErr (a : Agent) (cfg : RunConfig) : Option GoErr :=
  match cfg.respFormat.orElse (fun _ => a.respFormat) with
  | some (.jsonSchemaBad e) => some (.wrapped "invalid schema" e)
  | _ => none

/-- Outcome of the turn loop of `Runner.Run` (`runner.go` lines 114-202).  In
both constructors the final `Nat` is the number of completion-service calls
performed. -/
inductive LoopOut : Type where
  /-- the loop exited via `break`: final agent, the terminal assistant
  message, accumulated history, usage, steps, the agents returned by tool
  callbacks during the run (instrumentation), and the call count -/
  | done : Agent → AssistantMsg → List Msg → Usage → List Step → List Agent →
      Nat → LoopOut
  /-- the loop aborted with an error (`Run` returns a nil Result) -/
  | fail : GoErr → Nat → LoopOut

/-- The turn loop of `Runner.Run` (`runner.go` lines 114-202), driven by the
completion oracle and the context-error trace, with fuel.  `t` is the Go
`turnCount`; every iteration that reaches the completion call performs exactly
one call, so the call count equals the turn counter at each exit point. -/
def runLoop (completions : Nat → Except GoErr Completion) (ctxErr : Nat → Option GoErr)
    (cfg : RunConfig) (cv : ContextVariables) :
    Nat → Agent → List Msg → Usage → List Step → List Agent → Nat → Option LoopOut
  | 0, _, _, _, _, _, _ => none
  | fuel + 1, cur, history, usage, steps, hs, t =>
      if 0 < cfg.maxTurns ∧ cfg.maxTurns ≤ (t : Int) then
        some (.fail .errMaxTurnsExceeded t)
      else
        match ctxErr t with
        | some .deadlineExceeded => some (.fail .errTimeout t)
        | some e => some (.fail e t)
        | none =>
            match prepareRequestErr cur cfg with
            | some e => some (.fail e t)
            | none =>
                match completions t with
                | .error e => some (.fail (.wrapped "LLM call failed" e) (t + 1))
                | .ok comp =>
                    let usage' :=
                      if 0 < comp.usage.promptTokens then usage.Add comp.usage
                      else usage
                    let message := truncIds comp.message
                    let history' := history ++ [message.toMsg]
                    if message.toolCalls = [] then
                      some (.done cur message history' usage'
                        (steps ++ [⟨cur.name, [], t + 1⟩]) hs (t + 1))
                    else
                      let out := handleToolCalls cur.tools cv message.toolCalls cur
                      runLoop completions ctxErr cfg cv fuel out.next
                        (history' ++ out.msgs) usage'
                        (steps ++ [⟨cur.name, out.recorded, t + 1⟩])
                        (hs ++ out.handoffs) (t + 1)

/-- Extraction of the final output after the loop (`runner.go` lines 204-212):
the last assistant message's content, else its refusal, else empty. -/
def extractFinalOutput (history : List Msg) (lastMessage : AssistantMsg) : String :=
  if history ≠ [] then
    if lastMessage.content.length > 0 then lastMessage.content
    else if lastMessage.refusal ≠ "" then lastMessage.refusal
    else ""
  else ""

/-- A session handle as `Runner.Run` observes it (`runner.go` lines 15-18):
the outcome of `Get` and of `Append`.  The state change performed by `Append`
is invisible to `Run`'s return value. -/
structure SessIface where
  get : String → Except GoErr (List Msg)
  append : String → List Msg → Option GoErr

/-- The Go type assertion `err.(*NotFoundError)` at `runner.go` line 96: it
matches exactly the `agents.NotFoundError` type declared in `runner.go` —
*not* the structurally identical `session.NotFoundError` type the session
backends actually return. -/
def isAgentsNotFound : GoErr → Bool
  | .notFoundAgents _ => true
  | _ => false

/-- `agent.OnBeforeRun != nil && agent.OnBeforeRun(...) != nil`
(`runner.go` lines 74-79), reduced to the produced error. -/
def beforeHookErr (a : Agent) : Option GoErr :=
  match a.onBeforeRun with
  | some (some e) => some e
  | _ => none

/-- `agent.OnAfterRun` outcome (`runner.go` lines 236-241). -/
def afterHookErr (a : Agent) : Option GoErr :=
  match a.onAfterRun with
  | some (some e) => some e
  | _ => none

/-- The input-guardrail phase of `Run` (`runner.go` lines 81-88): guarded by a
non-empty guardrail list and non-empty messages; validates the rendering of
the most recent caller message. -/
def inputGuardPhase (a : Agent) (messages : List Msg) : Option GoErr :=
  if a.inputGuardrails.isEmpty ∨ messages.isEmpty then none
  else runInputGuardrails a.inputGuardrails (messages.getLastD (.user "")).render

/-- The session-load phase of `Run` (`runner.go` lines 90-103): when a session
and a non-empty id are supplied, `Get` runs; an error passing the
`*NotFoundError` type assertion (the agents-package type!) is tolerated, any
other error aborts wrapped as "failed to load session"; on success the loaded
history is prepended. -/
def loadSessionPhase (session : Option SessIface) (sessionID : String)
    (messages : List Msg) : Except GoErr (List Msg) :=
  match session with
  | some s =>
      if sessionID ≠ "" then
        match s.get sessionID with
        | .error e =>
            if isAgentsNotFound e then .ok messages
            else .error (.wrapped "failed to load session" e)
        | .ok hist => .ok (hist ++ messages)
      else .ok messages
  | none => .ok messages

/-- The output-guardrail phase of `Run` (`runner.go` lines 222-227): guarded
by a non-empty guardrail list **of the original agent** and a non-empty final
output. -/
def outputGuardPhase (a : Agent) (finalOutput : String) : Option GoErr :=
  if a.outputGuardrails.isEmpty ∨ finalOutput = "" then none
  else runOutputGuardrails a.outputGuardrails finalOutput

/-- The session-save phase of `Run` (`runner.go` lines 229-234): the *entire*
accumulated history is appended; an error is wrapped as
"failed to save session". -/
def saveSessionPhase (session : Option SessIface) (sessionID : String)
    (history : List Msg) : Option GoErr :=
  match session with
  | some s =>
      if sessionID ≠ "" then
        (s.append sessionID history).map (.wrapped "failed to save session")
      else none
  | none => none

/-- What `Run` returns: Go's `(*Result, error)` pair — both may be non-nil —
plus (instrumentation) the number of completion-service calls performed. -/
structure RunOutput where
  result : Option Result
  error : Option GoErr
  llmCalls : Nat

/-- Everything `Runner.Run` does after the loop exits via `break`
(`runner.go` lines 204-243): extract the final output, build the Result, run
the *original* agent's output guardrails, save the session, run the after
hook; each of the three post-loop failures still returns the Result. -/
def afterLoop (a : Agent) (session : Option SessIface) (sessionID : String) :
    LoopOut → RunOutput
  | .fail e n => { result := none, error := some e, llmCalls := n }
  | .done fa lastMessage history usage steps _ n =>
      let finalOutput := extractFinalOutput history lastMessage
      let result : Result :=
        { messages := history, agent := fa, usage := usage, steps := steps,
          finalOutput := finalOutput }
      match outputGuardPhase a finalOutput with
      | some e => { result := some result, error := some e, llmCalls := n }
      | none =>
          match saveSessionPhase session sessionID history with
          | some e => { result := some result, error := some e, llmCalls := n }
          | none =>
              match afterHookErr a with
              | some e =>
                  { result := some result,
                    error := some (.wrapped "OnAfterRun hook failed" e), llmCalls := n }
              | none => { result := some result, error := none, llmCalls := n }

/-- `Runner.Run` (`runner.go` lines 44-244).  The runner's `Client` is the
`completions` oracle; `ctxErr` is the context-error trace (see the module
comment for how `config.Timeout` relates to it); `none` means the fuel ran
out.  Phase order follows the source: empty-message check, config default,
before hook, input guardrails, session load, turn loop, post-loop phases. -/
def Run (completions : Nat → Except GoErr Completion) (ctxErr : Nat → Option GoErr)
    (agent : Agent) (messages : List Msg) (cv : Option ContextVariables)
    (config : Option RunConfig) (session : Option SessIface) (sessionID : String)
    (fuel : Nat) : Option RunOutput :=
  if messages = [] then
    some { result := none, error := some .errNoMessages, llmCalls := 0 }
  else
    let cfg := config.getD DefaultRunConfig
    let cvars := cv.getD []
    match beforeHookErr agent with
    | some e =>
        some ⟨none, some (.wrapped "OnBeforeRun hook failed" e), 0⟩
    | none =>
        match inputGuardPhase agent messages with
        | some e => some { result := none, error := some e, llmCalls := 0 }
        | none =>
            match loadSessionPhase session sessionID messages with
            | .error e => some { result := none, error := some e, llmCalls := 0 }
            | .ok msgs =>
                (runLoop completions ctxErr cfg cvars fuel agent msgs
                    { promptTokens := 0, completionTokens := 0, totalTokens := 0 }
                    [] [] 0).map
                  (afterLoop agent session sessionID)

/-! ### Session backends (`session/memory.go`, `session/file.go`)

Both stores are modelled as association lists from key to message list.  For
the durable backend the key is the file path and the JSON
(de)serialization performed by `os.ReadFile`/`writeAtomic` is treated as the
identity on well-formed stores; `writeAtomic`'s temp-file-plus-rename commit
collapses to a map update in this crash-free model.  The per-store mutex
serializes all operations, so the sequential semantics below is exactly the
observable one. -/

/-- Association-list store state: Go map / directory contents. -/
def StoreState : Type := List (String × List Msg)

/-- Key lookup (Go map indexing / `os.ReadFile` by path). -/
def lookupState : StoreState → String → Option (List Msg)
  | [], _ => none
  | (k, v) :: rest, id => if k = id then some v else lookupState rest id

/-- Key update (Go map assignment / `writeAtomic`). -/
def setState : StoreState → String → List Msg → StoreState
  | [], id, v => [(id, v)]
  | (k, w) :: rest, id, v =>
      if k = id then (k, v) :: rest else (k, w) :: setState rest id v

/-- Key removal (Go `delete` / `os.Remove`). -/
def delState : StoreState → String → StoreState
  | [], _ => []
  | (k, v) :: rest, id =>
      if k = id then delState rest id else (k, v) :: delState rest id

namespace MemorySession

/-- `MemorySession.Get` (`session/memory.go` lines 25-38): missing key is
`session.NotFoundError`; the returned slice copy is the identity here. -/
def Get (st : StoreState) (id : String) : Except GoErr (List Msg) :=
  match lookupState st id with
  | none => .error (.notFoundSession id)
  | some ms => .ok ms

/-- `MemorySession.Append` (`session/memory.go` lines 41-51): create the entry
if absent, then append.  Never fails. -/
def Append (st : StoreState) (id : String) (msgs : List Msg) : StoreState :=
  setState st id ((lookupState st id).getD [] ++ msgs)

/-- `MemorySession.Clear` (`session/memory.go` lines 54-63): NotFound if the
entry never existed, else replace it with the empty list. -/
def Clear (st : StoreState) (id : String) : Except GoErr StoreState :=
  match lookupState st id with
  | none => .error (.notFoundSession id)
  | some _ => .ok (setState st id [])

/-- `MemorySession.Delete` (`session/memory.go` lines 66-77): NotFound if
absent, else remove the entry. -/
def Delete (st : StoreState) (id : String) : Except GoErr StoreState :=
  match lookupState st id with
  | none => .error (.notFoundSession id)
  | some _ => .ok (delState st id)

/-- A `MemorySession` at a given state, as the `Session` interface value
passed to `Runner.Run`.  `Append` never errors. -/
def iface (st : StoreState) : SessIface :=
  { get := Get st, append := fun _ _ => none }

end MemorySession

namespace FileSession

/-- `FileSession.sessionPath` (`session/file.go` lines 34-37):
`filepath.Join(basePath, sessionID + ".json")`. -/
def sessionPath (basePath id : String) : String :=
  basePath ++ "/" ++ id ++ ".json"

/-- `FileSession.Get` (`session/file.go` lines 40-66): a missing file is
`session.NotFoundError`; otherwise the file's message list. -/
def Get (fs : StoreState) (basePath id : String) : Except GoErr (List Msg) :=
  match lookupState fs (sessionPath basePath id) with
  | none => .error (.notFoundSession id)
  | some ms => .ok ms

/-- `FileSession.Append` (`session/file.go` lines 69-98): read the existing
list (a missing file reads as empty), append, and commit the whole list
atomically. -/
def Append (fs : StoreState) (basePath id : String) (msgs : List Msg) : StoreState :=
  setState fs (sessionPath basePath id)
    ((lookupState fs (sessionPath basePath id)).getD [] ++ msgs)

/-- `FileSession.Clear` (`session/file.go` lines 101-110): NotFound if the
file does not exist, else commit the empty list. -/
def Clear (fs : StoreState) (basePath id : String) : Except GoErr StoreState :=
  match lookupState fs (sessionPath basePath id) with
  | none => .error (.notFoundSession id)
  | some _ => .ok (setState fs (sessionPath basePath id) [])

/-- `FileSession.Delete` (`session/file.go` lines 113-129): NotFound if the
file does not exist, else remove it. -/
def Delete (fs : StoreState) (basePath id : String) : Except GoErr StoreState :=
  match lookupState fs (sessionPath basePath id) with
  | none => .error (.notFoundSession id)
  | some _ => .ok (delState fs (sessionPath basePath id))

end FileSession

/-! ### Specification-side auxiliary definitions used by the theorems -/

/-- The zero usage. -/
def Usage.zero : Usage := { promptTokens := 0, completionTokens := 0, totalTokens := 0 }

/-- The token usage reported by the i-th completion-service call (zero when
that call failed — a failed call reports nothing). -/
def reportedUsage (completions : Nat → Except GoErr Completion) (i : Nat) : Usage :=
  match completions i with
  | .ok c => c.usage
  | .error _ => Usage.zero

/-- The quantity asserted by the spec sentence "a Result's Usage equals the
sum of token counts from every completion-service call made during the run":
the unconditional component-wise sum over the first n calls.  Written from the
spec's words, for comparison with what the code computes. -/
def specUsageSum (completions : Nat → Except GoErr Completion) : Nat → Usage
  | 0 => Usage.zero
  | n + 1 => (specUsageSum completions n).Add (reportedUsage completions n)

/-- What the loop actually adds for call i (`runner.go` lines 151-158): the
reported usage, but only when the reported prompt-token count is positive. -/
def usageContrib (completions : Nat → Except GoErr Completion) (i : Nat) : Usage :=
  match completions i with
  | .ok c => if 0 < c.usage.promptTokens then c.usage else Usage.zero
  | .error _ => Usage.zero

/-- Component-wise sum of `usageContrib` over calls t, t+1, …, t+k-1. -/
def codeUsageFrom (completions : Nat → Except GoErr Completion) : Nat → Nat → Usage
  | _, 0 => Usage.zero
  | t, k + 1 => (usageContrib completions t).Add (codeUsageFrom completions (t + 1) k)

/-! ### Concrete fixtures used by witnesses and counterexamples -/

/-- A single caller message. -/
def msgHi : List Msg := [.user "hi"]

/-- An agent with no tools, guardrails or hooks. -/
def agentTrivial : Agent := .mk "A" [] [] [] none none none

/-- A completion oracle that always answers with plain text and usage
(10,5,15). -/
def compOne : Nat → Except GoErr Completion :=
  fun _ => .ok ⟨⟨10, 5, 15⟩, ⟨"hi there", "", []⟩⟩

/-- A context that never expires. -/
def ctxNone : Nat → Option GoErr := fun _ => none

/-- A guardrail whose tripwire always triggers. -/
def tripG : Guardrail := ⟨"g", fun _ => .ok ⟨false, true, "bad"⟩⟩

/-- The handoff target: agent B carrying an always-tripping output
guardrail. -/
def agentB : Agent := .mk "B" [] [] [tripG] none none none

/-- A tool whose callback returns agent B (a handoff). -/
def toolT : Tool := .mk "t" (some (fun _ _ => .ok (.agentVal agentB)))

/-- Agent A with the handoff tool and no guardrails. -/
def agentA : Agent := .mk "A" [toolT] [] [] none none none

/-- Agent A with the handoff tool and an always-tripping *output*
guardrail. -/
def agentA2 : Agent := .mk "A" [toolT] [] [tripG] none none none

/-- Two-turn oracle: first answer requests tool `t`, second answers
"done"; usages (10,5,15) then (20,8,28). -/
def compHandoff : Nat → Except GoErr Completion := fun n =>
  if n = 0 then .ok ⟨⟨10, 5, 15⟩, ⟨"", "", [⟨"id1", "t", "\x7b\x7d"⟩]⟩⟩
  else .ok ⟨⟨20, 8, 28⟩, ⟨"done", "", []⟩⟩

/-- An oracle whose single reported usage has zero prompt tokens. -/
def compZeroPrompt : Nat → Except GoErr Completion :=
  fun _ => .ok ⟨⟨0, 5, 5⟩, ⟨"hi", "", []⟩⟩

/-- An oracle that requests tool calls on every turn. -/
def compToolsForever : Nat → Except GoErr Completion :=
  fun _ => .ok ⟨⟨10, 5, 15⟩, ⟨"", "", [⟨"id1", "t", ""⟩]⟩⟩

/-- A config with `Timeout = 0` (no derived deadline). -/
def cfgT0 : RunConfig := ⟨10, 0, none⟩

/-- A config with `MaxTurns = 2` and a plain-text response format. -/
def cfgMax2 : RunConfig := ⟨2, 0, some .text⟩

/-- An agent whose output guardrail itself fails (returns an error rather
than a finding). -/
def agentGErr : Agent :=
  .mk "A" [] [] [⟨"g", fun _ => .error (.external "boom")⟩] none none none

/-- An agent whose after-run hook fails. -/
def agentAfterFail : Agent :=
  .mk "A" [] [] [] none (some (some (.external "hook boom"))) none

/-! ### Helper lemmas -/

theorem Usage.zero_Add (u : Usage) : Usage.zero.Add u = u := by
  cases u; simp [Usage.Add, Usage.zero]

theorem Usage.Add_zero (u : Usage) : u.Add Usage.zero = u := by
  cases u; simp [Usage.Add, Usage.zero]

theorem Usage.Add_assoc (a b c : Usage) : (a.Add b).Add c = a.Add (b.Add c) := by
  cases a; cases b; cases c; simp [Usage.Add]; omega

theorem getLast?_getD_cons {α : Type} :
    ∀ (l : List α) (x d : α), ((x :: l).getLast?).getD d = (l.getLast?).getD x := by
  intro l
  induction l with
  | nil => intro x d; rfl
  | cons y ys ih => intro x d; rw [List.getLast?_cons_cons, ih, ih]

theorem getLast?_getD_append {α : Type} (l1 l2 : List α) (d : α) :
    ((l1 ++ l2).getLast?).getD d = (l2.getLast?).getD ((l1.getLast?).getD d) := by
  induction l1 generalizing d with
  | nil => rfl
  | cons x xs ih => rw [List.cons_append, getLast?_getD_cons, ih, getLast?_getD_cons]

/-- The `nextAgent` variable of `handleToolCalls` ends as the last handoff of
the batch, or stays at its initial value when the batch contains none. -/
theorem handleToolCalls_next_eq (tools : List Tool) (cv : ContextVariables)
    (tcs : List ToolCallReq) (nx : Agent) :
    (handleToolCalls tools cv tcs nx).next =
      ((handleToolCalls tools cv tcs nx).handoffs.getLast?).getD nx := by
  induction tcs generalizing nx with
  | nil => rfl
  | cons tc rest ih =>
      simp only [handleToolCalls]
      cases h : IsHandoff (processOne tools cv tc).1 with
      | some b => simp only [h, List.singleton_append, getLast?_getD_cons, ih b]
      | none => simp only [h, List.nil_append, ih nx]

theorem lookupState_set_self (st : StoreState) (k : String) (v : List Msg) :
    lookupState (setState st k v) k = some v := by
  induction st with
  | nil => simp [setState, lookupState]
  | cons p rest ih =>
      by_cases h : p.1 = k
      · simp [setState, h, lookupState]
      · simp [setState, h, lookupState, ih]

theorem lookupState_del_self (st : StoreState) (k : String) :
    lookupState (delState st k) k = none := by
  induction st with
  | nil => rfl
  | cons p rest ih =>
      cases p with
      | mk k1 v =>
          by_cases h : k1 = k
          · simpa [delState, h] using ih
          · simpa [delState, h, lookupState] using ih

/-- Every error produced by `runOutputGuardrails` is a tripwire error or a
wrapped guardrail failure. -/
theorem runOutputGuardrails_cases (grs : List Guardrail) (o : String) (e : GoErr)
    (h : runOutputGuardrails grs o = some e) :
    (∃ nm m, e = .outputGuardrailTripwire nm m) ∨
      (∃ nm e', e = .wrapped ("guardrail \x27" ++ nm ++ "\x27 failed") e') := by
  induction grs with
  | nil => simp [runOutputGuardrails] at h
  | cons g rest ih =>
      simp only [runOutputGuardrails] at h
      cases hf : g.func o with
      | error e' =>
          rw [hf] at h
          exact Or.inr ⟨g.name, e', (Option.some.injEq _ _ ▸ h).symm⟩
      | ok r =>
          rw [hf] at h
          by_cases ht : r.tripwireTriggered
          · simp [ht] at h
            exact Or.inl ⟨g.name, r.message, h.symm⟩
          · simp [ht] at h
            exact ih h

theorem outputGuardPhase_cases (a : Agent) (o : String) (e : GoErr)
    (h : outputGuardPhase a o = some e) :
    (∃ nm m, e = .outputGuardrailTripwire nm m) ∨
      (∃ nm e', e = .wrapped ("guardrail \x27" ++ nm ++ "\x27 failed") e') := by
  unfold outputGuardPhase at h
  split at h
  · simp at h
  · exact runOutputGuardrails_cases _ _ _ h

theorem saveSessionPhase_cases (session : Option SessIface) (sid : String)
    (hist : List Msg) (e : GoErr) (h : saveSessionPhase session sid hist = some e) :
    ∃ e', e = .wrapped "failed to save session" e' := by
  unfold saveSessionPhase at h
  cases session with
  | none => simp at h
  | some s =>
      simp only at h
      split at h
      · cases ha : s.append sid hist with
        | none => rw [ha] at h; simp at h
        | some e0 => rw [ha] at h; simp at h; exact ⟨e0, h.symm⟩
      · simp at h

/-- When the pre-loop phases all succeed, `Run` is the loop followed by the
post-loop phases. -/
theorem Run_eq_loop (completions : Nat → Except GoErr Completion)
    (ctxErr : Nat → Option GoErr) (agent : Agent) (messages msgs : List Msg)
    (cv : ContextVariables) (cfg : RunConfig) (session : Option SessIface)
    (sid : String) (fuel : Nat)
    (hne : messages ≠ [])
    (hb : beforeHookErr agent = none)
    (hig : inputGuardPhase agent messages = none)
    (hl : loadSessionPhase session sid messages = .ok msgs) :
    Run completions ctxErr agent messages (some cv) (some cfg) session sid fuel =
      (runLoop completions ctxErr cfg cv fuel agent msgs ⟨0, 0, 0⟩ [] [] 0).map
        (afterLoop agent session sid) := by
  unfold Run
  rw [if_neg hne, hb, hig, hl]
  rfl

/-! ### Claim theorems -/

/-- C1: the claim says a backend NotFound from `Get` lets the run proceed
with only the caller's messages.  The code contradicts it (and its own
comment at `runner.go` lines 94-95): the backends return
`*session.NotFoundError` while `Run`'s type assertion at line 96 tests for
`*agents.NotFoundError`, so a fresh `MemorySession` aborts the run with a
wrapped load error before any completion-service call. -/
theorem run_aborts_on_backend_session_notfound :
    Run compOne ctxNone agentTrivial msgHi none none
        (some (MemorySession.iface [])) "s1" 5 =
      some ⟨none, some (.wrapped "failed to load session" (.notFoundSession "s1")), 0⟩ := by
  rfl

/-- C3 counterexample: with `config.Timeout = 0` and a context that is
already expired with `context.DeadlineExceeded` (a caller-supplied deadline),
`Run` reports `ErrTimeout` — the claim requires the Timeout error only when
the expiry is due to the configured deadline (`config.Timeout > 0`) and the
underlying error to be propagated unchanged otherwise. -/
theorem run_timeout_despite_zero_config_timeout :
    cfgT0.timeout = 0 ∧
      Run compOne (fun _ => some .deadlineExceeded) agentTrivial msgHi none
          (some cfgT0) none "" 5 =
        some ⟨none, some .errTimeout, 0⟩ := by
  exact ⟨rfl, rfl⟩

/-- C3 amended: at the top of a turn with an expired context, `Run` returns
`ErrTimeout` exactly when the context error is `context.DeadlineExceeded` —
whichever deadline produced it — and propagates any other context error
(e.g. `context.Canceled`) unchanged; `config.Timeout` plays no role in this
discrimination. -/
theorem run_ctx_error_discrimination (completions : Nat → Except GoErr Completion)
    (ctxErr : Nat → Option GoErr) (agent : Agent) (messages msgs : List Msg)
    (cv : ContextVariables) (cfg : RunConfig) (session : Option SessIface)
    (sid : String) (fuel : Nat) (e : GoErr)
    (hne : messages ≠ [])
    (hb : beforeHookErr agent = none)
    (hig : inputGuardPhase agent messages = none)
    (hl : loadSessionPhase session sid messages = .ok msgs)
    (hc : ctxErr 0 = some e) :
    Run completions ctxErr agent messages (some cv) (some cfg) session sid (fuel + 1) =
      some ⟨none,
        some (match e with | .deadlineExceeded => .errTimeout | _ => e), 0⟩ := by
  rw [Run_eq_loop completions ctxErr agent messages msgs cv cfg session sid (fuel + 1)
    hne hb hig hl]
  have hmt : ¬(0 < cfg.maxTurns ∧ cfg.maxTurns ≤ ((0 : Nat) : Int)) := by
    push_cast
    omega
  simp only [runLoop, if_neg hmt, hc]
  cases e <;> rfl

/-- C3 witness: a caller cancellation (`context.Canceled`) with
`config.Timeout = 0` is propagated unchanged, not reported as Timeout. -/
theorem run_ctx_error_discrimination_witness :
    Run compOne (fun _ => some .canceled) agentTrivial msgHi (some [])
        (some cfgT0) none "" 5 =
      some ⟨none, some .canceled, 0⟩ := by
  exact run_ctx_error_discrimination compOne (fun _ => some .canceled) agentTrivial
    msgHi msgHi [] cfgT0 none "" 4 .canceled (by simp [msgHi]) rfl rfl rfl rfl

/-- C2 counterexample: a run in which a handoff to agent B occurred and the
final output "done" is non-empty; B carries an output guardrail that trips on
every payload, yet `Run` returns no error — so the guardrails executed after
the loop are *not* those of the agent active at loop exit.  (They are the
original agent A's; A has none.) -/
theorem run_exit_agent_guardrails_not_run :
    (Run compHandoff ctxNone agentA msgHi none none none "" 5).map
        (fun o => (o.error, o.result.map (fun r => (r.agent.name, r.finalOutput)))) =
      some (none, some ("B", "done")) ∧
      runOutputGuardrails agentB.outputGuardrails "done" =
        some (.outputGuardrailTripwire "g" "bad") := by
  exact ⟨rfl, rfl⟩

/-- C2 amended: the output guardrails executed after the loop exits are those
of the *original* agent the caller passed in — even when a handoff occurred —
run sequentially against the final output when it is non-empty: whenever the
original agent's output guardrails reject the final output, that verdict is
exactly what `Run` returns (alongside the already-built Result). -/
theorem run_output_guardrails_use_original (completions : Nat → Except GoErr Completion)
    (ctxErr : Nat → Option GoErr) (agent : Agent) (messages msgs : List Msg)
    (cv : ContextVariables) (cfg : RunConfig) (session : Option SessIface)
    (sid : String) (fuel : Nat) (fa : Agent) (lm : AssistantMsg) (hist : List Msg)
    (u : Usage) (steps : List Step) (hsT : List Agent) (n : Nat) (e : GoErr)
    (hne : messages ≠ [])
    (hb : beforeHookErr agent = none)
    (hig : inputGuardPhase agent messages = none)
    (hl : loadSessionPhase session sid messages = .ok msgs)
    (hloop : runLoop completions ctxErr cfg cv fuel agent msgs ⟨0, 0, 0⟩ [] [] 0 =
      some (.done fa lm hist u steps hsT n))
    (hgne : agent.outputGuardrails.isEmpty = false)
    (ho : extractFinalOutput hist lm ≠ "")
    (hg : runOutputGuardrails agent.outputGuardrails (extractFinalOutput hist lm) =
      some e) :
    Run completions ctxErr agent messages (some cv) (some cfg) session sid fuel =
      some ⟨some ⟨hist, fa, u, steps, extractFinalOutput hist lm⟩, some e, n⟩ := by
  rw [Run_eq_loop completions ctxErr agent messages msgs cv cfg session sid fuel
    hne hb hig hl, hloop]
  have hphase : outputGuardPhase agent (extractFinalOutput hist lm) = some e := by
    unfold outputGuardPhase
    rw [if_neg, hg]
    rintro (h1 | h2)
    · rw [hgne] at h1
      simp at h1
    · exact ho h2
  simp only [Option.map_some', afterLoop, hphase]

/-- C2 witness: a handoff run whose original agent A carries the tripping
output guardrail; the verdict returned is A's guardrail tripwire, computed
against the final output "done", even though the final agent is B. -/
theorem run_output_guardrails_use_original_witness :
    Run compHandoff ctxNone agentA2 msgHi (some []) (some cfgT0) none "" 5 =
      some ⟨some ⟨[.user "hi", .assistant "" "" [⟨"id1", "t", "\x7b\x7d"⟩],
          .tool "Transferred to B" "id1", .assistant "done" "" []],
        agentB, ⟨30, 13, 43⟩,
        [⟨"A", [⟨"t", "\x7b\x7d", .agentVal agentB, none⟩], 1⟩, ⟨"B", [], 2⟩],
        "done"⟩,
        some (.outputGuardrailTripwire "g" "bad"), 2⟩ := by
  exact run_output_guardrails_use_original compHandoff ctxNone agentA2 msgHi msgHi
    [] cfgT0 none "" 5 agentB ⟨"done", "", []⟩
    [.user "hi", .assistant "" "" [⟨"id1", "t", "\x7b\x7d"⟩],
     .tool "Transferred to B" "id1", .assistant "done" "" []]
    ⟨30, 13, 43⟩
    [⟨"A", [⟨"t", "\x7b\x7d", .agentVal agentB, none⟩], 1⟩, ⟨"B", [], 2⟩]
    [agentB] 2 (.outputGuardrailTripwire "g" "bad")
    (by simp [msgHi]) rfl rfl rfl rfl rfl (by decide) rfl

/-- Loop lemma for C4: under an environment that never expires the context,
never fails request preparation, and answers every call with a tool-requesting
reply, the loop with `MaxTurns = N` fails with the Max-Turns error after
exactly N completion calls. -/
theorem runLoop_maxTurns (completions : Nat → Except GoErr Completion)
    (ctxErr : Nat → Option GoErr) (cfg : RunConfig) (cv : ContextVariables)
    (N : Nat) (hN : 0 < N) (hmt : cfg.maxTurns = (N : Int))
    (hctx : ∀ i, ctxErr i = none)
    (hpr : ∀ a, prepareRequestErr a cfg = none)
    (hcomp : ∀ i, ∃ c, completions i = .ok c ∧ c.message.toolCalls ≠ []) :
    ∀ fuel t cur hist usage steps hs, t ≤ N → N - t < fuel →
      runLoop completions ctxErr cfg cv fuel cur hist usage steps hs t =
        some (.fail .errMaxTurnsExceeded N) := by
  intro fuel
  induction fuel with
  | zero => intro t cur hist usage steps hs ht hf; omega
  | succ f ih =>
      intro t cur hist usage steps hs ht hf
      by_cases htN : t = N
      · have hcond : 0 < cfg.maxTurns ∧ cfg.maxTurns ≤ ((t : Nat) : Int) := by
          rw [hmt]
          omega
        simp only [runLoop, if_pos hcond]
        rw [htN]
      · have htlt : t < N := lt_of_le_of_ne ht htN
        have hcond : ¬(0 < cfg.maxTurns ∧ cfg.maxTurns ≤ ((t : Nat) : Int)) := by
          rw [hmt]
          omega
        obtain ⟨c, hc, hnil⟩ := hcomp t
        have htc : ¬((truncIds c.message).toolCalls = []) := by
          simpa [truncIds] using hnil
        simp only [runLoop, if_neg hcond, hctx t, hpr cur, hc, if_neg htc]
        exact ih (t + 1) _ _ _ _ _ (by omega) (by omega)

/-- C4: with `config.MaxTurns = N > 0` and every completion-service response
requesting tool calls, the run aborts with the Max-Turns error and a nil
Result, and the completion service is invoked exactly N times — in
particular, never an (N+1)-th time. -/
theorem run_max_turns_bound (completions : Nat → Except GoErr Completion)
    (ctxErr : Nat → Option GoErr) (agent : Agent) (messages msgs : List Msg)
    (cv : ContextVariables) (cfg : RunConfig) (session : Option SessIface)
    (sid : String) (fuel N : Nat)
    (hN : 0 < N) (hmt : cfg.maxTurns = (N : Int))
    (hctx : ∀ i, ctxErr i = none)
    (hpr : ∀ a, prepareRequestErr a cfg = none)
    (hcomp : ∀ i, ∃ c, completions i = .ok c ∧ c.message.toolCalls ≠ [])
    (hne : messages ≠ [])
    (hb : beforeHookErr agent = none)
    (hig : inputGuardPhase agent messages = none)
    (hl : loadSessionPhase session sid messages = .ok msgs)
    (hfuel : N < fuel) :
    Run completions ctxErr agent messages (some cv) (some cfg) session sid fuel =
      some ⟨none, some .errMaxTurnsExceeded, N⟩ := by
  rw [Run_eq_loop completions ctxErr agent messages msgs cv cfg session sid fuel
    hne hb hig hl]
  rw [runLoop_maxTurns completions ctxErr cfg cv N hN hmt hctx hpr hcomp fuel 0
    agent msgs ⟨0, 0, 0⟩ [] [] (by omega) (by omega)]
  rfl

/-- C4 witness: `MaxTurns = 2`, an oracle that always requests tool calls:
the run aborts with the Max-Turns error, a nil Result, and exactly two
completion-service calls. -/
theorem run_max_turns_bound_witness :
    Run compToolsForever ctxNone agentA msgHi (some []) (some cfgMax2) none "" 9 =
      some ⟨none, some .errMaxTurnsExceeded, 2⟩ := by
  exact run_max_turns_bound compToolsForever ctxNone agentA msgHi msgHi [] cfgMax2
    none "" 9 2 (by omega) rfl (fun i => rfl) (fun a => rfl)
    (fun i => ⟨⟨⟨10, 5, 15⟩, ⟨"", "", [⟨"id1", "t", ""⟩]⟩⟩, rfl, by decide⟩)
    (by simp [msgHi]) rfl rfl rfl (by omega)

/-- The Result built by the post-loop phases always carries the loop's final
agent, history, usage and steps — whichever post-loop phase errors. -/
theorem afterLoop_done_result (a : Agent) (session : Option SessIface) (sid : String)
    (fa : Agent) (lm : AssistantMsg) (hist : List Msg) (u : Usage)
    (steps : List Step) (hsT : List Agent) (n : Nat) :
    (afterLoop a session sid (.done fa lm hist u steps hsT n)).result =
      some ⟨hist, fa, u, steps, extractFinalOutput hist lm⟩ := by
  simp only [afterLoop]
  split
  · rfl
  · split
    · rfl
    · split <;> rfl

/-- Loop invariant for C5: when the loop exits via `break`, the handoff trace
grew by some suffix Δ and the final agent is the last element of Δ, or the
agent that entered this portion of the loop when Δ is empty. -/
theorem runLoop_handoffs (completions : Nat → Except GoErr Completion)
    (ctxErr : Nat → Option GoErr) (cfg : RunConfig) (cv : ContextVariables) :
    ∀ fuel cur hist usage steps hs t fa lm h2 u2 s2 hsT n,
      runLoop completions ctxErr cfg cv fuel cur hist usage steps hs t =
        some (.done fa lm h2 u2 s2 hsT n) →
      ∃ d, hsT = hs ++ d ∧ fa = (d.getLast?).getD cur := by
  intro fuel
  induction fuel with
  | zero =>
      intro cur hist usage steps hs t fa lm h2 u2 s2 hsT n h
      simp [runLoop] at h
  | succ f ih =>
      intro cur hist usage steps hs t fa lm h2 u2 s2 hsT n h
      simp only [runLoop] at h
      split at h
      · simp at h
      · split at h
        · simp at h
        · simp at h
        · split at h
          · simp at h
          · split at h
            · simp at h
            · split at h
              · -- the loop exits now: the trace is unchanged and `fa = cur`
                simp only [Option.some.injEq, LoopOut.done.injEq] at h
                obtain ⟨hfa, -, -, -, -, hhs, -⟩ := h
                exact ⟨[], by simp [hhs.symm], by simp [hfa.symm]⟩
              · -- the loop recurses with the batch handoffs appended
                rename_i comp hcomp htc
                obtain ⟨d, hd1, hd2⟩ := ih _ _ _ _ _ _ _ _ _ _ _ _ _ h
                refine ⟨(handleToolCalls cur.tools cv
                    (truncIds comp.message).toolCalls cur).handoffs ++ d, ?_, ?_⟩
                · rw [hd1, List.append_assoc]
                · rw [hd2, handleToolCalls_next_eq, getLast?_getD_append]

/-- The history message built for a tool call whose callback returned an
Agent is the synthetic transfer notice naming that agent (`runner.go` lines
376-388). -/
theorem handleToolCalls_msgs_at (tools : List Tool) (cv : ContextVariables) :
    ∀ (tcs : List ToolCallReq) (nx : Agent) (i : Nat) (tc : ToolCallReq) (b : Agent),
      tcs[i]? = some tc → (processOne tools cv tc).1 = .agentVal b →
      ((handleToolCalls tools cv tcs nx).msgs)[i]? =
        some (.tool ("Transferred to " ++ b.name) (trunc40 tc.id)) := by
  intro tcs
  induction tcs with
  | nil => intro nx i tc b h hb; simp at h
  | cons hd tl ih =>
      intro nx i tc b h hb
      cases i with
      | zero =>
          simp only [List.getElem?_cons_zero, Option.some.injEq] at h
          subst h
          simp only [handleToolCalls, hb, IsHandoff, List.getElem?_cons_zero,
            Option.some.injEq, GoAny.render]
      | succ j =>
          simp only [List.getElem?_cons_succ] at h
          simp only [handleToolCalls, List.getElem?_cons_succ]
          exact ih _ j tc b h hb

/-- The `ToolCall` trace entry for a tool call is recorded from the raw
`processOne` outcome, before any handoff substitution (`runner.go` lines
367-374). -/
theorem handleToolCalls_recorded_at (tools : List Tool) (cv : ContextVariables) :
    ∀ (tcs : List ToolCallReq) (nx : Agent) (i : Nat) (tc : ToolCallReq),
      tcs[i]? = some tc →
      ((handleToolCalls tools cv tcs nx).recorded)[i]? =
        some ⟨tc.fname, tc.args, (processOne tools cv tc).1, (processOne tools cv tc).2⟩ := by
  intro tcs
  induction tcs with
  | nil => intro nx i tc h; simp at h
  | cons hd tl ih =>
      intro nx i tc h
      cases i with
      | zero =>
          simp only [List.getElem?_cons_zero, Option.some.injEq] at h
          subst h
          simp only [handleToolCalls, List.getElem?_cons_zero]
      | succ j =>
          simp only [List.getElem?_cons_succ] at h
          simp only [handleToolCalls, List.getElem?_cons_succ]
          exact ih _ j tc h

/-- A tool call whose processing produced an `*Agent` value went through the
successful-execution branch, so it carries no structured error. -/
theorem processOne_agent_no_error (tools : List Tool) (cv : ContextVariables)
    (tc : ToolCallReq) (b : Agent) (hb : (processOne tools cv tc).1 = .agentVal b) :
    (processOne tools cv tc).2 = none := by
  unfold processOne at hb ⊢
  cases hf : lookupTool tools tc.fname with
  | none => simp [hf] at hb
  | some t =>
      simp only [hf] at hb ⊢
      cases he : t.execute tc.args cv with
      | ok v => simp only [he]
      | fail e => simp [he] at hb

/-- C5: in a run where tool callbacks returned Agent values, the Result's
final agent is the last such Agent returned; and for any tool call whose
callback returns an Agent, the tool-output message appended to history is the
synthetic transfer-notice string naming that agent — never the agent value
itself. -/
theorem run_handoff_final_agent_and_notice (completions : Nat → Except GoErr Completion)
    (ctxErr : Nat → Option GoErr) (agent : Agent) (messages msgs : List Msg)
    (cv : ContextVariables) (cfg : RunConfig) (session : Option SessIface)
    (sid : String) (fuel : Nat) (fa : Agent) (lm : AssistantMsg) (hist : List Msg)
    (u : Usage) (steps : List Step) (hsT : List Agent) (n : Nat)
    (hne : messages ≠ [])
    (hb : beforeHookErr agent = none)
    (hig : inputGuardPhase agent messages = none)
    (hl : loadSessionPhase session sid messages = .ok msgs)
    (hloop : runLoop completions ctxErr cfg cv fuel agent msgs ⟨0, 0, 0⟩ [] [] 0 =
      some (.done fa lm hist u steps hsT n))
    (hhs : hsT ≠ []) :
    (∃ b, hsT.getLast? = some b ∧
      (Run completions ctxErr agent messages (some cv) (some cfg) session sid fuel).map
          (fun o => o.result.map (fun r => r.agent)) = some (some b)) ∧
    (∀ (tools : List Tool) (cv' : ContextVariables) (tcs : List ToolCallReq)
        (nx : Agent) (i : Nat) (tc : ToolCallReq) (b' : Agent),
      tcs[i]? = some tc → (processOne tools cv' tc).1 = .agentVal b' →
      ((handleToolCalls tools cv' tcs nx).msgs)[i]? =
        some (.tool ("Transferred to " ++ b'.name) (trunc40 tc.id))) := by
  constructor
  · obtain ⟨d, hd1, hd2⟩ :=
      runLoop_handoffs completions ctxErr cfg cv fuel agent msgs ⟨0, 0, 0⟩ [] [] 0
        fa lm hist u steps hsT n hloop
    simp only [List.nil_append] at hd1
    subst hd1
    obtain ⟨b, hbeq⟩ : ∃ b, hsT.getLast? = some b := by
      cases hgl : hsT.getLast? with
      | some b => exact ⟨b, rfl⟩
      | none => exact absurd (List.getLast?_eq_none_iff.mp hgl) hhs
    refine ⟨b, hbeq, ?_⟩
    rw [Run_eq_loop completions ctxErr agent messages msgs cv cfg session sid fuel
      hne hb hig hl, hloop]
    simp only [Option.map_some', afterLoop_done_result, hd2, hbeq, Option.getD_some]
  · intro tools cv' tcs nx i tc b' h hb'
    exact handleToolCalls_msgs_at tools cv' tcs nx i tc b' h hb'

/-- C5 witness: in the concrete handoff run the trace of returned agents is
`[agentB]`, the Result's final agent is agent B, and the recorded history
message of the handoff call is the transfer notice. -/
theorem run_handoff_final_agent_and_notice_witness :
    (Run compHandoff ctxNone agentA msgHi (some []) (some cfgT0) none "" 5).map
        (fun o => o.result.map (fun r => r.agent)) = some (some agentB) ∧
    ((handleToolCalls agentA.tools [] [⟨"id1", "t", "\x7b\x7d"⟩] agentA).msgs)[0]? =
      some (.tool ("Transferred to " ++ agentB.name) (trunc40 "id1")) := by
  obtain ⟨⟨b, hb1, hb2⟩, hmsg⟩ :=
    run_handoff_final_agent_and_notice compHandoff ctxNone agentA msgHi msgHi []
      cfgT0 none "" 5 agentB ⟨"done", "", []⟩
      [.user "hi", .assistant "" "" [⟨"id1", "t", "\x7b\x7d"⟩],
       .tool "Transferred to B" "id1", .assistant "done" "" []]
      ⟨30, 13, 43⟩
      [⟨"A", [⟨"t", "\x7b\x7d", .agentVal agentB, none⟩], 1⟩, ⟨"B", [], 2⟩]
      [agentB] 2 (by simp [msgHi]) rfl rfl rfl rfl (by simp)
  have hbB : b = agentB := by simpa using hb1.symm
  subst hbB
  exact ⟨hb2, hmsg agentA.tools [] [⟨"id1", "t", "\x7b\x7d"⟩] agentA 0
    ⟨"id1", "t", "\x7b\x7d"⟩ agentB rfl rfl⟩

/-- C10: the `ToolCall` entry recorded in the turn's Step for a handoff call
retains the raw agent value in its Result field (with no error), while the
history message for the same call carries only the transfer notice — the
substitution happens after the record is made. -/
theorem handoff_record_keeps_raw_agent (tools : List Tool) (cv : ContextVariables)
    (tcs : List ToolCallReq) (nx : Agent) (i : Nat) (tc : ToolCallReq) (b : Agent)
    (h : tcs[i]? = some tc) (hb : (processOne tools cv tc).1 = .agentVal b) :
    ((handleToolCalls tools cv tcs nx).recorded)[i]? =
      some ⟨tc.fname, tc.args, .agentVal b, none⟩ ∧
    ((handleToolCalls tools cv tcs nx).msgs)[i]? =
      some (.tool ("Transferred to " ++ b.name) (trunc40 tc.id)) := by
  constructor
  · rw [handleToolCalls_recorded_at tools cv tcs nx i tc h, hb,
      processOne_agent_no_error tools cv tc b hb]
  · exact handleToolCalls_msgs_at tools cv tcs nx i tc b h hb

/-- C10 witness: for a concrete handoff call, the recorded entry holds the
raw `agentB` value and the history message holds the notice. -/
theorem handoff_record_keeps_raw_agent_witness :
    ((handleToolCalls agentA.tools [] [⟨"idX", "t", "\x7b\x7d"⟩] agentA).recorded)[0]? =
      some ⟨"t", "\x7b\x7d", .agentVal agentB, none⟩ ∧
    ((handleToolCalls agentA.tools [] [⟨"idX", "t", "\x7b\x7d"⟩] agentA).msgs)[0]? =
      some (.tool ("Transferred to " ++ agentB.name) (trunc40 "idX")) := by
  exact handoff_record_keeps_raw_agent agentA.tools [] [⟨"idX", "t", "\x7b\x7d"⟩]
    agentA 0 ⟨"idX", "t", "\x7b\x7d"⟩ agentB rfl rfl

/-- C6 counterexample: an output guardrail that *malfunctions* (returns an
error, not a tripwire) makes `Run` return a non-nil Result together with a
non-nil error that is none of the three cases listed by the claim
(output-guardrail tripwire, session-save failure, after-hook failure). -/
theorem run_guardrail_malfunction_result_with_error :
    (Run compOne ctxNone agentGErr msgHi none none none "" 5).map
        (fun o => (o.result.isSome, o.error)) =
      some (true, some (.wrapped "guardrail \x27g\x27 failed" (.external "boom"))) ∧
    ¬((∃ nm m, GoErr.wrapped "guardrail \x27g\x27 failed" (.external "boom") =
          .outputGuardrailTripwire nm m) ∨
      (∃ e', GoErr.wrapped "guardrail \x27g\x27 failed" (.external "boom") =
          .wrapped "failed to save session" e') ∨
      (∃ e', GoErr.wrapped "guardrail \x27g\x27 failed" (.external "boom") =
          .wrapped "OnAfterRun hook failed" e')) := by
  refine ⟨rfl, ?_⟩
  rintro (⟨nm, m, hx⟩ | ⟨e', hx⟩ | ⟨e', hx⟩)
  · exact absurd hx (by simp)
  · injection hx with hs _
    exact absurd hs (by decide)
  · injection hx with hs _
    exact absurd hs (by decide)

/-- C6 amended: `Run` returns a non-nil Result together with a non-nil error
exactly when the error arises in one of the three post-loop phases — the
output-guardrail stage (a tripwire, or the guardrail's own failure, wrapped),
the session save, or the after hook; a before-hook error, an input-guardrail
tripwire, and every other error path return a nil Result. -/
theorem run_result_with_error_cases (completions : Nat → Except GoErr Completion)
    (ctxErr : Nat → Option GoErr) (agent : Agent) (messages : List Msg)
    (cvo : Option ContextVariables) (cfgo : Option RunConfig)
    (session : Option SessIface) (sid : String) (fuel : Nat) (out : RunOutput)
    (r : Result) (e : GoErr)
    (h : Run completions ctxErr agent messages cvo cfgo session sid fuel = some out)
    (hr : out.result = some r) (he : out.error = some e) :
    (∃ nm m, e = .outputGuardrailTripwire nm m) ∨
      (∃ nm e', e = .wrapped ("guardrail \x27" ++ nm ++ "\x27 failed") e') ∨
      (∃ e', e = .wrapped "failed to save session" e') ∨
      (∃ e', e = .wrapped "OnAfterRun hook failed" e') := by
  unfold Run at h
  by_cases hm : messages = []
  · rw [if_pos hm] at h
    simp only [Option.some.injEq] at h
    subst h
    simp at hr
  · rw [if_neg hm] at h
    cases hbe : beforeHookErr agent with
    | some e0 =>
        simp only [hbe] at h
        simp only [Option.some.injEq] at h
        subst h
        simp at hr
    | none =>
        simp only [hbe] at h
        cases hip : inputGuardPhase agent messages with
        | some e0 =>
            simp only [hip] at h
            simp only [Option.some.injEq] at h
            subst h
            simp at hr
        | none =>
            simp only [hip] at h
            cases hls : loadSessionPhase session sid messages with
            | error e0 =>
                simp only [hls] at h
                simp only [Option.some.injEq] at h
                subst h
                simp at hr
            | ok msgs =>
                simp only [hls] at h
                obtain ⟨lo, hlo, hout⟩ := Option.map_eq_some'.mp h
                subst hout
                cases lo with
                | fail e0 n => simp [afterLoop] at hr
                | done fa lm hist u steps hsT n =>
                    simp only [afterLoop] at hr he
                    cases hog : outputGuardPhase agent (extractFinalOutput hist lm) with
                    | some e0 =>
                        simp only [hog, Option.some.injEq] at he
                        subst he
                        rcases outputGuardPhase_cases agent _ e0 hog with h1 | h2
                        · exact Or.inl h1
                        · exact Or.inr (Or.inl h2)
                    | none =>
                        simp only [hog] at he
                        cases hsv : saveSessionPhase session sid hist with
                        | some e0 =>
                            simp only [hsv, Option.some.injEq] at he
                            subst he
                            exact Or.inr (Or.inr (Or.inl
                              (saveSessionPhase_cases session sid hist e0 hsv)))
                        | none =>
                            simp only [hsv] at he
                            cases hah : afterHookErr agent with
                            | some e0 =>
                                simp only [hah, Option.some.injEq] at he
                                subst he
                                exact Or.inr (Or.inr (Or.inr ⟨e0, rfl⟩))
                            | none =>
                                simp only [hah] at he
                                exact absurd he (by simp)

/-- C6 witness: a run with a failing after hook returns a non-nil Result and
a non-nil error, and that error falls into the amended case list. -/
theorem run_result_with_error_cases_witness :
    (∃ nm m, GoErr.wrapped "OnAfterRun hook failed" (.external "hook boom") =
        .outputGuardrailTripwire nm m) ∨
      (∃ nm e', GoErr.wrapped "OnAfterRun hook failed" (.external "hook boom") =
        .wrapped ("guardrail \x27" ++ nm ++ "\x27 failed") e') ∨
      (∃ e', GoErr.wrapped "OnAfterRun hook failed" (.external "hook boom") =
        .wrapped "failed to save session" e') ∨
      (∃ e', GoErr.wrapped "OnAfterRun hook failed" (.external "hook boom") =
        .wrapped "OnAfterRun hook failed" e') := by
  exact run_result_with_error_cases compOne ctxNone agentAfterFail msgHi none none
    none "" 5
    ⟨some ⟨[.user "hi", .assistant "hi there" "" []], agentAfterFail,
        ⟨10, 5, 15⟩, [⟨"A", [], 1⟩], "hi there"⟩,
      some (.wrapped "OnAfterRun hook failed" (.external "hook boom")), 1⟩
    ⟨[.user "hi", .assistant "hi there" "" []], agentAfterFail,
      ⟨10, 5, 15⟩, [⟨"A", [], 1⟩], "hi there"⟩
    (.wrapped "OnAfterRun hook failed" (.external "hook boom")) rfl rfl rfl

/-- C7: for both backends, appending M1 then M2 under a fresh identifier and
retrieving yields `M1 ++ M2` in order; clearing an existing session then
retrieving yields the empty list; deleting an existing session then
retrieving yields the (session-package) NotFound error. -/
theorem session_round_trip (id base : String) (M1 M2 : List Msg) (st fs : StoreState) :
    (lookupState st id = none →
      MemorySession.Get (MemorySession.Append (MemorySession.Append st id M1) id M2) id =
        .ok (M1 ++ M2)) ∧
    (∀ w, lookupState st id = some w →
      ∃ st', MemorySession.Clear st id = .ok st' ∧ MemorySession.Get st' id = .ok []) ∧
    (∀ w, lookupState st id = some w →
      ∃ st', MemorySession.Delete st id = .ok st' ∧
        MemorySession.Get st' id = .error (.notFoundSession id)) ∧
    (lookupState fs (FileSession.sessionPath base id) = none →
      FileSession.Get
          (FileSession.Append (FileSession.Append fs base id M1) base id M2) base id =
        .ok (M1 ++ M2)) ∧
    (∀ w, lookupState fs (FileSession.sessionPath base id) = some w →
      ∃ fs', FileSession.Clear fs base id = .ok fs' ∧
        FileSession.Get fs' base id = .ok []) ∧
    (∀ w, lookupState fs (FileSession.sessionPath base id) = some w →
      ∃ fs', FileSession.Delete fs base id = .ok fs' ∧
        FileSession.Get fs' base id = .error (.notFoundSession id)) := by
  refine ⟨?_, ?_, ?_, ?_, ?_, ?_⟩
  · intro h0
    simp [MemorySession.Get, MemorySession.Append, h0, lookupState_set_self]
  · intro w hw
    exact ⟨setState st id [], by simp [MemorySession.Clear, hw],
      by simp [MemorySession.Get, lookupState_set_self]⟩
  · intro w hw
    exact ⟨delState st id, by simp [MemorySession.Delete, hw],
      by simp [MemorySession.Get, lookupState_del_self]⟩
  · intro h0
    simp [FileSession.Get, FileSession.Append, h0, lookupState_set_self]
  · intro w hw
    exact ⟨setState fs (FileSession.sessionPath base id) [],
      by simp [FileSession.Clear, hw],
      by simp [FileSession.Get, lookupState_set_self]⟩
  · intro w hw
    exact ⟨delState fs (FileSession.sessionPath base id),
      by simp [FileSession.Delete, hw],
      by simp [FileSession.Get, lookupState_del_self]⟩

/-- C7 witness: the round trip at concrete stores, identifiers and message
lists, for both backends. -/
theorem session_round_trip_witness :
    MemorySession.Get
        (MemorySession.Append (MemorySession.Append [] "s" [.user "a"]) "s"
          [.user "b"]) "s" = .ok [.user "a", .user "b"] ∧
    (∃ st', MemorySession.Clear [("s", [Msg.user "a"])] "s" = .ok st' ∧
      MemorySession.Get st' "s" = .ok []) ∧
    (∃ st', MemorySession.Delete [("s", [Msg.user "a"])] "s" = .ok st' ∧
      MemorySession.Get st' "s" = .error (.notFoundSession "s")) ∧
    FileSession.Get
        (FileSession.Append (FileSession.Append [] "/tmp" "s" [.user "a"]) "/tmp" "s"
          [.user "b"]) "/tmp" "s" = .ok [.user "a", .user "b"] ∧
    (∃ fs', FileSession.Clear [("/tmp/s.json", [Msg.user "a"])] "/tmp" "s" = .ok fs' ∧
      FileSession.Get fs' "/tmp" "s" = .ok []) ∧
    (∃ fs', FileSession.Delete [("/tmp/s.json", [Msg.user "a"])] "/tmp" "s" = .ok fs' ∧
      FileSession.Get fs' "/tmp" "s" = .error (.notFoundSession "s")) := by
  refine ⟨(session_round_trip "s" "/tmp" [.user "a"] [.user "b"] [] []).1 rfl,
    (session_round_trip "s" "/tmp" [.user "a"] [.user "b"]
      [("s", [Msg.user "a"])] []).2.1 [Msg.user "a"] rfl,
    (session_round_trip "s" "/tmp" [.user "a"] [.user "b"]
      [("s", [Msg.user "a"])] []).2.2.1 [Msg.user "a"] rfl,
    (session_round_trip "s" "/tmp" [.user "a"] [.user "b"] [] []).2.2.2.1 rfl,
    (session_round_trip "s" "/tmp" [.user "a"] [.user "b"] []
      [("/tmp/s.json", [Msg.user "a"])]).2.2.2.2.1 [Msg.user "a"] rfl,
    (session_round_trip "s" "/tmp" [.user "a"] [.user "b"] []
      [("/tmp/s.json", [Msg.user "a"])]).2.2.2.2.2 [Msg.user "a"] rfl⟩

/-- C8: a tool name absent from the active agent's registry, or a callback
error, never aborts the loop: the textual error message becomes that tool's
output message, the structured error is recorded on the ToolCall entry, and
the loop proceeds to the next turn (recording the batch on the turn's
Step). -/
theorem tool_errors_never_abort :
    (∀ (tools : List Tool) (cv : ContextVariables) (tc : ToolCallReq),
      lookupTool tools tc.fname = none →
      processOne tools cv tc =
        (.str ("Error: Tool " ++ tc.fname ++ " not found. Available tools: [" ++
            String.intercalate " " (availableNames tools) ++ "]"),
         some (.toolNotFound tc.fname (availableNames tools)))) ∧
    (∀ (tools : List Tool) (cv : ContextVariables) (tc : ToolCallReq) (t : Tool)
        (e : GoErr),
      lookupTool tools tc.fname = some t → t.execute tc.args cv = .fail e →
      processOne tools cv tc =
        (.str ("Error executing tool " ++ tc.fname ++ ": " ++ e.msg),
         some (.toolExecutionError tc.fname e))) ∧
    (∀ (completions : Nat → Except GoErr Completion) (ctxErr : Nat → Option GoErr)
        (cfg : RunConfig) (cv : ContextVariables) (fuel : Nat) (cur : Agent)
        (hist : List Msg) (usage : Usage) (steps : List Step) (hs : List Agent)
        (t : Nat) (comp : Completion),
      ¬(0 < cfg.maxTurns ∧ cfg.maxTurns ≤ ((t : Nat) : Int)) →
      ctxErr t = none → prepareRequestErr cur cfg = none →
      completions t = .ok comp → (truncIds comp.message).toolCalls ≠ [] →
      runLoop completions ctxErr cfg cv (fuel + 1) cur hist usage steps hs t =
        runLoop completions ctxErr cfg cv fuel
          (handleToolCalls cur.tools cv (truncIds comp.message).toolCalls cur).next
          (hist ++ [(truncIds comp.message).toMsg] ++
            (handleToolCalls cur.tools cv (truncIds comp.message).toolCalls cur).msgs)
          (if 0 < comp.usage.promptTokens then usage.Add comp.usage else usage)
          (steps ++ [⟨cur.name,
            (handleToolCalls cur.tools cv (truncIds comp.message).toolCalls cur).recorded,
            t + 1⟩])
          (hs ++ (handleToolCalls cur.tools cv
            (truncIds comp.message).toolCalls cur).handoffs)
          (t + 1)) := by
  refine ⟨?_, ?_, ?_⟩
  · intro tools cv tc h
    simp [processOne, h]
  · intro tools cv tc t e hf he
    simp [processOne, hf, he]
  · intro completions ctxErr cfg cv fuel cur hist usage steps hs t comp
      hmt hctx hpr hc htc
    simp only [runLoop, if_neg hmt, hctx, hpr, hc, if_neg htc]

/-- C8 witness: a missing tool name and a failing callback at concrete
inputs, plus the loop-continuation equation at a concrete state. -/
theorem tool_errors_never_abort_witness :
    processOne agentA.tools [] ⟨"id9", "nope", ""⟩ =
      (.str "Error: Tool nope not found. Available tools: [t]",
       some (.toolNotFound "nope" ["t"])) ∧
    processOne [Tool.mk "f" (some (fun _ _ => .fail (.external "callback blew up")))]
        [] ⟨"id1", "f", "\x7b\x7d"⟩ =
      (.str "Error executing tool f: callback blew up",
       some (.toolExecutionError "f" (.external "callback blew up"))) ∧
    runLoop compToolsForever ctxNone cfgT0 [] 3 agentA msgHi ⟨0, 0, 0⟩ [] [] 0 =
      runLoop compToolsForever ctxNone cfgT0 [] 2
        (handleToolCalls agentA.tools []
          (truncIds ⟨"", "", [⟨"id1", "t", ""⟩]⟩).toolCalls agentA).next
        (msgHi ++ [(truncIds (⟨"", "", [⟨"id1", "t", ""⟩]⟩ : AssistantMsg)).toMsg] ++
          (handleToolCalls agentA.tools []
            (truncIds ⟨"", "", [⟨"id1", "t", ""⟩]⟩).toolCalls agentA).msgs)
        (if 0 < (⟨10, 5, 15⟩ : Usage).promptTokens then
          Usage.Add ⟨0, 0, 0⟩ ⟨10, 5, 15⟩ else ⟨0, 0, 0⟩)
        ([] ++ [⟨agentA.name,
          (handleToolCalls agentA.tools []
            (truncIds ⟨"", "", [⟨"id1", "t", ""⟩]⟩).toolCalls agentA).recorded, 1⟩])
        ([] ++ (handleToolCalls agentA.tools []
          (truncIds ⟨"", "", [⟨"id1", "t", ""⟩]⟩).toolCalls agentA).handoffs) 1 := by
  refine ⟨tool_errors_never_abort.1 agentA.tools [] ⟨"id9", "nope", ""⟩ rfl,
    tool_errors_never_abort.2.1
      [Tool.mk "f" (some (fun _ _ => .fail (.external "callback blew up")))] []
      ⟨"id1", "f", "\x7b\x7d"⟩
      (Tool.mk "f" (some (fun _ _ => .fail (.external "callback blew up"))))
      (.external "callback blew up") rfl rfl,
    ?_⟩
  exact tool_errors_never_abort.2.2 compToolsForever ctxNone cfgT0 [] 2 agentA msgHi
    ⟨0, 0, 0⟩ [] [] 0 ⟨⟨10, 5, 15⟩, ⟨"", "", [⟨"id1", "t", ""⟩]⟩⟩
    (by simp [cfgT0]) rfl rfl rfl (by decide)

/-- `Usage.zero_Add` with the literal zero record. -/
theorem Usage.zero_mk_Add (u : Usage) : (⟨0, 0, 0⟩ : Usage).Add u = u := by
  cases u; simp [Usage.Add]

/-- The post-loop phases preserve the loop's call count. -/
theorem afterLoop_done_llmCalls (a : Agent) (session : Option SessIface) (sid : String)
    (fa : Agent) (lm : AssistantMsg) (hist : List Msg) (u : Usage)
    (steps : List Step) (hsT : List Agent) (n : Nat) :
    (afterLoop a session sid (.done fa lm hist u steps hsT n)).llmCalls = n := by
  simp only [afterLoop]
  split
  · rfl
  · split
    · rfl
    · split <;> rfl

/-- Loop invariant for C9: when the loop exits via `break` after call n, the
accumulated usage is the entry usage plus the per-call contributions of calls
t … n-1, where a call contributes its reported usage only when its
prompt-token count is positive. -/
theorem runLoop_usage (completions : Nat → Except GoErr Completion)
    (ctxErr : Nat → Option GoErr) (cfg : RunConfig) (cv : ContextVariables) :
    ∀ fuel cur hist usage steps hs t fa lm h2 u2 s2 hsT n,
      runLoop completions ctxErr cfg cv fuel cur hist usage steps hs t =
        some (.done fa lm h2 u2 s2 hsT n) →
      t < n ∧ u2 = usage.Add (codeUsageFrom completions t (n - t)) := by
  intro fuel
  induction fuel with
  | zero =>
      intro cur hist usage steps hs t fa lm h2 u2 s2 hsT n h
      simp [runLoop] at h
  | succ f ih =>
      intro cur hist usage steps hs t fa lm h2 u2 s2 hsT n h
      simp only [runLoop] at h
      split at h
      · simp at h
      · split at h
        · simp at h
        · simp at h
        · split at h
          · simp at h
          · split at h
            · simp at h
            · rename_i comp hcomp
              split at h
              · simp only [Option.some.injEq, LoopOut.done.injEq] at h
                obtain ⟨-, -, -, hu, -, -, hn⟩ := h
                subst hn
                refine ⟨by omega, ?_⟩
                have hone : t + 1 - t = 1 := by omega
                rw [hone, ← hu]
                simp only [codeUsageFrom, Usage.Add_zero, usageContrib, hcomp]
                by_cases hp : 0 < comp.usage.promptTokens
                · simp [hp]
                · simp [hp, Usage.Add_zero]
              · obtain ⟨hlt, hu⟩ := ih _ _ _ _ _ _ _ _ _ _ _ _ _ h
                refine ⟨by omega, ?_⟩
                rw [hu]
                have hnt : n - t = (n - (t + 1)) + 1 := by omega
                rw [hnt]
                simp only [codeUsageFrom]
                rw [← Usage.Add_assoc]
                congr 1
                simp only [usageContrib, hcomp]
                by_cases hp : 0 < comp.usage.promptTokens
                · simp [hp]
                · simp [hp, Usage.Add_zero]

/-- C9 counterexample: a completion call that reports usage (0,5,5) is not
accumulated at all (the code adds usage only when the reported prompt-token
count is positive), so the Result's usage (0,0,0) differs from the
component-wise sum (0,5,5) over every call made. -/
theorem run_usage_skips_zero_prompt :
    (Run compZeroPrompt ctxNone agentTrivial msgHi none none none "" 5).map
        (fun o => (o.llmCalls, o.result.map (fun r => r.usage))) =
      some (1, some ⟨0, 0, 0⟩) ∧
    specUsageSum compZeroPrompt 1 = ⟨0, 5, 5⟩ ∧
    (⟨0, 0, 0⟩ : Usage) ≠ ⟨0, 5, 5⟩ := ⟨rfl, rfl, by decide⟩

/-- C9 amended: for every successful run, the Result's Usage equals the
component-wise sum of the token counts reported by the completion-service
calls whose reported prompt-token count is positive (calls reporting zero
prompt tokens are skipped); for calls that all report positive prompt tokens
this is the plain sum, e.g. (10,5,15) and (20,8,28) give (30,13,43). -/
theorem run_usage_accumulation (completions : Nat → Except GoErr Completion)
    (ctxErr : Nat → Option GoErr) (agent : Agent) (messages msgs : List Msg)
    (cv : ContextVariables) (cfg : RunConfig) (session : Option SessIface)
    (sid : String) (fuel : Nat) (fa : Agent) (lm : AssistantMsg) (hist : List Msg)
    (u : Usage) (steps : List Step) (hsT : List Agent) (n : Nat)
    (hne : messages ≠ [])
    (hb : beforeHookErr agent = none)
    (hig : inputGuardPhase agent messages = none)
    (hl : loadSessionPhase session sid messages = .ok msgs)
    (hloop : runLoop completions ctxErr cfg cv fuel agent msgs ⟨0, 0, 0⟩ [] [] 0 =
      some (.done fa lm hist u steps hsT n)) :
    ∃ out, Run completions ctxErr agent messages (some cv) (some cfg) session sid
        fuel = some out ∧
      out.llmCalls = n ∧
      ∃ r, out.result = some r ∧ r.usage = codeUsageFrom completions 0 n := by
  obtain ⟨-, hu⟩ :=
    runLoop_usage completions ctxErr cfg cv fuel agent msgs ⟨0, 0, 0⟩ [] [] 0
      fa lm hist u steps hsT n hloop
  refine ⟨afterLoop agent session sid (.done fa lm hist u steps hsT n), ?_, ?_, ?_⟩
  · rw [Run_eq_loop completions ctxErr agent messages msgs cv cfg session sid fuel
      hne hb hig hl, hloop]
    rfl
  · exact afterLoop_done_llmCalls agent session sid fa lm hist u steps hsT n
  · refine ⟨⟨hist, fa, u, steps, extractFinalOutput hist lm⟩,
      afterLoop_done_result agent session sid fa lm hist u steps hsT n, ?_⟩
    show u = codeUsageFrom completions 0 n
    rw [hu, Usage.zero_mk_Add, Nat.sub_zero]

/-- C9 witness: two turns reporting (10,5,15) and (20,8,28) yield a Result
with total usage (30,13,43), i.e. the component-wise sum. -/
theorem run_usage_accumulation_witness :
    codeUsageFrom compHandoff 0 2 = ⟨30, 13, 43⟩ ∧
    ∃ out, Run compHandoff ctxNone agentA msgHi (some []) (some cfgT0) none "" 5 =
        some out ∧
      out.llmCalls = 2 ∧
      ∃ r, out.result = some r ∧ r.usage = codeUsageFrom compHandoff 0 2 := by
  refine ⟨rfl, ?_⟩
  exact run_usage_accumulation compHandoff ctxNone agentA msgHi msgHi [] cfgT0
    none "" 5 agentB ⟨"done", "", []⟩
    [.user "hi", .assistant "" "" [⟨"id1", "t", "\x7b\x7d"⟩],
     .tool "Transferred to B" "id1", .assistant "done" "" []]
    ⟨30, 13, 43⟩
    [⟨"A", [⟨"t", "\x7b\x7d", .agentVal agentB, none⟩], 1⟩, ⟨"B", [], 2⟩]
    [agentB] 2 (by simp [msgHi]) rfl rfl rfl rfl
